import Mathlib

/-!
# gopush2: the TCP subscribe front end (`pubsub_tcp.go`)

A shallow embedding of `parseCmdSize`, `parseCmdData`, `handleTCPConn` and
`SubscribeTCPHandle`, followed by the theorems that settle the claims of the
specification against them.

Modelling conventions.

* A byte is a `Nat` (values below 256); a Go `string` or `[]byte` is a
  `List Nat`.  `bytes "sub"` is the byte string of an ASCII literal.
* A `bufio.Reader` over the connection is a `Reader`: the bytes the peer sends
  before the stream ends, and the error every read returns once they are used
  up (`io.EOF`, a timeout, a reset, ...).  A peer that sends nothing more and
  keeps the connection open is a `Conn` with `closing = none`; the decoder is
  modelled on a `Conn` as well, with the outcome that a read never returns.
* Go's `int` is the 64 bit signed integer, an `Int` wrapped by `wrapInt64`
  where the source does arithmetic on it.
* The collaborators that live in other files of the repository (`Conf`,
  `channel`, the channel methods, `heartbeatMsg`, `heartbeatBytes`) are fields
  of `Env`; what the handler does to the outside world is a list of `Event`s.
* The line loop of `parseCmdSize` and the argument loop of `handleTCPConn` carry a
  fuel argument; running out of fuel is the result `none`, and the theorems
  prove it never happens.  The heartbeat loop recurses on the list of read
  outcomes of the connection.
-/

namespace Gopush2

/-! ## Bytes, errors, results -/

/-- Byte string of an ASCII literal. -/
def bytes (s : String) : List Nat := s.toList.map Char.toNat

/-- Errors seen by the decoder: the two package level errors of the source and
the errors a read on the connection can return. -/
inductive Error where
  | EOF
  | net (code : Nat)
  | CmdFmtErr
  | CmdSizeErr
  deriving DecidableEq, Repr

/-- Result of a Go call returning `(value, error)`, with the run time panic as
a third outcome. -/
inductive Res (α : Type) where
  | ok (v : α)
  | err (e : Error)
  | panic
  deriving DecidableEq, Repr

/-- Go's wrap around of a 64 bit signed integer. -/
def wrapInt64 (x : Int) : Int := (x + 2 ^ 63) % 2 ^ 64 - 2 ^ 63

/-! ## The buffered reader -/

/-- The buffered reader over the connection: the bytes still to come, and the
error returned once they are exhausted. -/
structure Reader where
  data : List Nat
  endErr : Error
  deriving DecidableEq, Repr

/-- Split a byte list after the first occurrence of `delim`. -/
def splitLine (delim : Nat) : List Nat → Option (List Nat × List Nat)
  | [] => none
  | b :: bs =>
    if b = delim then some ([b], bs)
    else
      match splitLine delim bs with
      | none => none
      | some (l, r) => some (b :: l, r)

/-- Model of `bufio.Reader.ReadBytes(delim)`: the bytes up to and including the first
`delim` with a nil error, or, when the stream ends first, the bytes read so
far together with the stream's error. -/
def Reader.ReadBytes (rd : Reader) (delim : Nat) : List Nat × Option Error × Reader :=
  match splitLine delim rd.data with
  | some (line, rest) => (line, none, { rd with data := rest })
  | none => (rd.data, some rd.endErr, { rd with data := [] })

/-- Model of `bufio.Reader.Read(p)` with `len(p) = n`: at most `n` of the bytes
available, the stream's error when a non-empty read finds the stream ended.
`data` stands for the bytes available to the call; a buffered reader whose bytes
arrive in several segments can return fewer. -/
def Reader.Read (rd : Reader) (n : Nat) : List Nat × Option Error × Reader :=
  if n = 0 then ([], none, rd)
  else if rd.data = [] then ([], some rd.endErr, rd)
  else (rd.data.take n, none, { rd with data := rd.data.drop n })

/-! ## `strconv` -/

/-- Value of a run of ASCII digits, `none` at the first byte that is no digit. -/
def digitsValue : List Nat → Nat → Option Nat
  | [], acc => some acc
  | b :: bs, acc =>
    if 48 ≤ b ∧ b ≤ 57 then digitsValue bs (acc * 10 + (b - 48)) else none

/-- Model of `strconv.ParseUint(s, 10, 64)`; `none` is a non-nil error. -/
def ParseUint (s : List Nat) : Option Nat :=
  if s = [] then none
  else
    match digitsValue s 0 with
    | none => none
    | some v => if v < 2 ^ 64 then some v else none

/-- Model of `strconv.ParseInt(s, 10, 64)`; `none` is a non-nil error. -/
def ParseInt (s : List Nat) : Option Int :=
  match s with
  | [] => none
  | c :: rest =>
    let neg := decide (c = 45)
    let s1 := if c = 43 ∨ c = 45 then rest else s
    match ParseUint s1 with
    | none => none
    | some un =>
      if neg = false ∧ 2 ^ 63 ≤ un then none
      else if neg = true ∧ 2 ^ 63 < un then none
      else some (if neg then -(un : Int) else (un : Int))

/-- Model of `strconv.Atoi(s)` for the 64 bit `int`. -/
def Atoi (s : List Nat) : Option Int := ParseInt s

/-! ## `parseCmdSize` and `parseCmdData` -/

/-- The `for` loop of `parseCmdSize` (source lines 228 to 239): read lines with
`ReadBytes(10)`, append each to `cmdBuf`, leave the loop when the line just read
ends in a carriage return (13), return the error when the read fails. -/
def parseCmdSizeLoop : Nat → Reader → List Nat → Option (Res (List Nat) × Reader)
  | 0, _, _ => none
  | fuel + 1, rd, cmdBuf =>
    match rd.ReadBytes 10 with
    | (_, some e, rd1) => some (Res.err e, rd1)
    | (cmd, none, rd1) =>
      let cmdBuf1 := cmdBuf ++ cmd
      if cmd.length > 0 ∧ cmd.getLast? = some 13 then some (Res.ok cmdBuf1, rd1)
      else parseCmdSizeLoop fuel rd1 cmdBuf1

/-- Model of `parseCmdSize(rd, prefix)`.  `cmdBuf` starts as `make([]byte, 8)`, eight zero
bytes, and the lines are appended to it. -/
def parseCmdSize (rd : Reader) (pfx : Nat) : Option (Res Int × Reader) :=
  match parseCmdSizeLoop (rd.data.length + 1) rd (List.replicate 8 0) with
  | none => none
  | some (Res.err e, rd1) => some (Res.err e, rd1)
  | some (Res.panic, rd1) => some (Res.panic, rd1)
  | some (Res.ok cmd, rd1) =>
    let cmdLen := cmd.length
    if cmdLen ≤ 3 ∨ cmd.head? ≠ some pfx then some (Res.err Error.CmdFmtErr, rd1)
    else
      match Atoi ((cmd.take (cmdLen - 1)).drop 1) with
      | none => some (Res.err Error.CmdFmtErr, rd1)
      | some cmdSize => some (Res.ok cmdSize, rd1)

/-- Model of `parseCmdData(rd, cmdLen)`: `make([]byte, cmdLen+2)` panics on a negative
length; one `Read` into the buffer; the whole buffer is returned when the
read filled it.  What `make` does on a size that is not negative but too large
for the allocator (a panic, or the end of the process) is not modelled. -/
def parseCmdData (rd : Reader) (cmdLen : Int) : Res (List Nat) × Reader :=
  let rcmdLen := wrapInt64 (cmdLen + 2)
  if rcmdLen < 0 then (Res.panic, rd)
  else
    match rd.Read rcmdLen.toNat with
    | (_, some e, rd1) => (Res.err e, rd1)
    | (buf, none, rd1) =>
      if buf.length ≠ rcmdLen.toNat then (Res.err Error.CmdSizeErr, rd1)
      else (Res.ok buf, rd1)

/-! ## The environment and the observable events -/

/-- What lives outside `pubsub_tcp.go`: the configuration, the heartbeat
constants, the channel registry and the channel methods (a `true` result is a
nil error, a channel is named by a number), and what the connection answers
to the reads and writes of the heartbeat loop. -/
structure Env where
  Auth : Int
  HeartbeatSec : Int
  heartbeatMsg : List Nat
  heartbeatBytes : List Nat
  Get : List Nat → Option Nat
  New : List Nat → Option Nat
  AuthToken : Nat → List Nat → List Nat → Bool
  SendMsg : Nat → Int → List Nat → Bool
  AddConn : Nat → Int → List Nat → Bool
  RemoveConn : Nat → Int → List Nat → Bool
  reads : List (Option Nat)
  writeOk : Nat → Bool

/-- One observable step of a connection handler. -/
inductive Event where
  | parseSize (pfx : Nat)
  | parseData (cmdLen : Int)
  | subscribe (args : List (List Nat))
  | get (key : List Nat)
  | new (key : List Nat)
  | authToken (c : Nat) (token key : List Nat)
  | sendMsg (c : Nat) (mid : Int) (key : List Nat)
  | addConn (c : Nat) (mid : Int) (key : List Nat)
  | removeConn (c : Nat) (mid : Int) (key : List Nat)
  | setReadDeadline (nanos : Int)
  | read (r : Option Nat)
  | write (bs : List Nat) (ok : Bool)
  | panic
  | close
  deriving DecidableEq, Repr

/-! ## `SubscribeTCPHandle` -/

/-- The duration `time.Second * time.Duration(heartbeat)` of source line 204: an `int64`
count of nanoseconds, so the product wraps.  The read deadline is set that
long after the present time. -/
def deadlineNanos (heartbeat : Int) : Int := wrapInt64 (1000000000 * heartbeat)

/-- The heartbeat loop (source lines 203 to 221).  Each element of the list is
the outcome of one `conn.Read(reply)`: `some b` is the byte read, `none` a failed
read; a list that is used up is a failed read.  `w` counts the writes done.
The event of `conn.SetReadDeadline` holds the duration added to the present time. -/
def heartbeatLoop (env : Env) (heartbeat : Int) : List (Option Nat) → Nat → List Event
  | [], _ => [Event.setReadDeadline (deadlineNanos heartbeat), Event.read none]
  | none :: _, _ => [Event.setReadDeadline (deadlineNanos heartbeat), Event.read none]
  | some b :: rest, w =>
    if [b] = env.heartbeatMsg then
      if env.writeOk w then
        Event.setReadDeadline (deadlineNanos heartbeat) :: Event.read (some b) ::
          Event.write env.heartbeatBytes true :: heartbeatLoop env heartbeat rest (w + 1)
      else
        [Event.setReadDeadline (deadlineNanos heartbeat), Event.read (some b),
          Event.write env.heartbeatBytes false]
    else [Event.setReadDeadline (deadlineNanos heartbeat), Event.read (some b)]

/-- Source lines 182 to 224: replay, registration, the deferred `RemoveConn`
around the heartbeat loop. -/
def sessionReplay (env : Env) (c : Nat) (key : List Nat) (mid heartbeat : Int) : List Event :=
  Event.sendMsg c mid key ::
    (if env.SendMsg c mid key then
      Event.addConn c mid key ::
        (if env.AddConn c mid key then
          heartbeatLoop env heartbeat env.reads 0 ++ [Event.removeConn c mid key]
        else [])
    else [])

/-- Source lines 174 to 224: the authentication gate, then the rest. -/
def sessionAuth (env : Env) (c : Nat) (key : List Nat) (mid heartbeat : Int)
    (token : List Nat) : List Event :=
  if env.Auth = 1 then
    Event.authToken c token key ::
      (if env.AuthToken c token key then sessionReplay env c key mid heartbeat else [])
  else sessionReplay env c key mid heartbeat

/-- Source lines 159 to 224: the session once `key`, `mid`, `heartbeat` and `token` are
known. -/
def subscribeSession (env : Env) (key : List Nat) (mid heartbeat : Int)
    (token : List Nat) : List Event :=
  Event.get key ::
    (match env.Get key with
    | some c => sessionAuth env c key mid heartbeat token
    | none =>
      if env.Auth = 0 then
        Event.new key ::
          (match env.New key with
          | some c => sessionAuth env c key mid heartbeat token
          | none => [])
      else [])

/-- Model of `SubscribeTCPHandle(conn, args)`: the events of the session. -/
def SubscribeTCPHandle (env : Env) (args : List (List Nat)) : List Event :=
  let argLen := args.length
  if argLen < 2 then []
  else
    let key := args.getD 0 []
    let midStr := args.getD 1 []
    match ParseInt midStr with
    | none => []
    | some mid =>
      match (if argLen > 2 then Atoi (args.getD 2 []) else some env.HeartbeatSec) with
      | none => []
      | some heartbeat =>
        let token := if argLen > 3 then args.getD 3 [] else []
        subscribeSession env key mid heartbeat token

/-! ## `handleTCPConn` -/

/-- The argument loop of `handleTCPConn` (source lines 92 to 109), written as the
source has it: the counter `i` is decremented, and every argument is appended
to `args`.  The result is the final `args` and the calls made. -/
def argLoop : Nat → Reader → Int → Int → List (List Nat) →
    Option (Res (List (List Nat)) × List Event)
  | 0, _, _, _, _ => none
  | fuel + 1, rd, i, argNum, args =>
    if i < argNum then
      match parseCmdSize rd 36 with
      | none => none
      | some (Res.err e, _) => some (Res.err e, [Event.parseSize 36])
      | some (Res.panic, _) => some (Res.panic, [Event.parseSize 36])
      | some (Res.ok cmdLen, rd1) =>
        match parseCmdData rd1 cmdLen with
        | (Res.err e, _) => some (Res.err e, [Event.parseSize 36, Event.parseData cmdLen])
        | (Res.panic, _) => some (Res.panic, [Event.parseSize 36, Event.parseData cmdLen])
        | (Res.ok d, rd2) =>
          match argLoop fuel rd2 (wrapInt64 (i - 1)) argNum (args ++ [d]) with
          | none => none
          | some (r, evs) => some (r, Event.parseSize 36 :: Event.parseData cmdLen :: evs)
    else some (Res.ok args, [])

/-- Source lines 86 to 121 of `handleTCPConn`, with the deferred `conn.Close()`: what
the handler does once the argument count is known.  `args` starts as
`make([]string, argNum)`, that is `argNum` empty strings. -/
def handleArgs (env : Env) (rd : Reader) (argNum : Int) : Option (List Event) :=
  if argNum < 1 then some [Event.close]
  else
    match argLoop (rd.data.length + 1) rd 0 argNum (List.replicate argNum.toNat []) with
    | none => none
    | some (Res.err _, evs) => some (evs ++ [Event.close])
    | some (Res.panic, evs) => some (evs ++ [Event.panic, Event.close])
    | some (Res.ok [], evs) => some (evs ++ [Event.panic, Event.close])
    | some (Res.ok (cmd :: rest), evs) =>
      if cmd = bytes "sub" then
        some (evs ++ Event.subscribe rest :: SubscribeTCPHandle env rest ++ [Event.close])
      else some (evs ++ [Event.close])

/-- Model of `handleTCPConn(conn)`: the calls it makes, ending with the deferred
`conn.Close()`. -/
def handleTCPConn (env : Env) (rd : Reader) : Option (List Event) :=
  match parseCmdSize rd 42 with
  | none => none
  | some (Res.ok argNum, rd1) =>
    match handleArgs env rd1 argNum with
    | none => none
    | some evs => some (Event.parseSize 42 :: evs)
  | some (_, _) => some [Event.parseSize 42, Event.close]

/-! ## A connection that may stay open -/

/-- The connection as the decoder reads it when the peer need not close it: the
bytes the peer has sent, and what follows them.  With `closing = some e` every
read past these bytes fails with `e`, which is the case a `Reader` covers.  With
`closing = none` the peer sends nothing more and keeps the connection open;
`handleTCPConn` sets no read deadline, so a read that needs more bytes never
returns. -/
structure Conn where
  data : List Nat
  closing : Option Error
  deriving DecidableEq, Repr

/-- Outcome of a call that reads from a `Conn`: it returned, or it waits for ever
in a read. -/
inductive Wait (α : Type) where
  | returned (a : α)
  | blocked
  deriving DecidableEq, Repr

/-- Outcome of a connection handler: the calls it made, and whether it returned,
its deferred calls included, or waits for ever in a read. -/
inductive Outcome where
  | returned (t : List Event)
  | blocked (t : List Event)
  deriving DecidableEq, Repr

/-- Model of `bufio.Reader.ReadBytes(delim)` on a `Conn`: as on a `Reader`, but with no delimiter
left on an open connection the call waits for ever. -/
def Conn.ReadBytes (c : Conn) (delim : Nat) : Wait (List Nat × Option Error × Conn) :=
  match splitLine delim c.data with
  | some (line, rest) => Wait.returned (line, none, { c with data := rest })
  | none =>
    match c.closing with
    | some e => Wait.returned (c.data, some e, { c with data := [] })
    | none => Wait.blocked

/-- Model of `bufio.Reader.Read(p)` with `len(p) = n` on a `Conn`: as on a `Reader`, but a
non-empty read with no byte left on an open connection waits for ever. -/
def Conn.Read (c : Conn) (n : Nat) : Wait (List Nat × Option Error × Conn) :=
  if n = 0 then Wait.returned ([], none, c)
  else if c.data = [] then
    match c.closing with
    | some e => Wait.returned ([], some e, c)
    | none => Wait.blocked
  else Wait.returned (c.data.take n, none, { c with data := c.data.drop n })

/-- The `for` loop of `parseCmdSize` (source lines 228 to 239) on a `Conn`. -/
def Conn.parseCmdSizeLoop : Nat → Conn → List Nat → Option (Wait (Res (List Nat) × Conn))
  | 0, _, _ => none
  | fuel + 1, c, cmdBuf =>
    match c.ReadBytes 10 with
    | Wait.blocked => some Wait.blocked
    | Wait.returned (_, some e, c1) => some (Wait.returned (Res.err e, c1))
    | Wait.returned (cmd, none, c1) =>
      let cmdBuf1 := cmdBuf ++ cmd
      if cmd.length > 0 ∧ cmd.getLast? = some 13 then
        some (Wait.returned (Res.ok cmdBuf1, c1))
      else Conn.parseCmdSizeLoop fuel c1 cmdBuf1

/-- Model of `parseCmdSize(rd, prefix)` on a `Conn`. -/
def Conn.parseCmdSize (c : Conn) (pfx : Nat) : Option (Wait (Res Int × Conn)) :=
  match Conn.parseCmdSizeLoop (c.data.length + 1) c (List.replicate 8 0) with
  | none => none
  | some Wait.blocked => some Wait.blocked
  | some (Wait.returned (Res.err e, c1)) => some (Wait.returned (Res.err e, c1))
  | some (Wait.returned (Res.panic, c1)) => some (Wait.returned (Res.panic, c1))
  | some (Wait.returned (Res.ok cmd, c1)) =>
    let cmdLen := cmd.length
    if cmdLen ≤ 3 ∨ cmd.head? ≠ some pfx then
      some (Wait.returned (Res.err Error.CmdFmtErr, c1))
    else
      match Atoi ((cmd.take (cmdLen - 1)).drop 1) with
      | none => some (Wait.returned (Res.err Error.CmdFmtErr, c1))
      | some cmdSize => some (Wait.returned (Res.ok cmdSize, c1))

/-- Model of `parseCmdData(rd, cmdLen)` on a `Conn`. -/
def Conn.parseCmdData (c : Conn) (cmdLen : Int) : Wait (Res (List Nat) × Conn) :=
  let rcmdLen := wrapInt64 (cmdLen + 2)
  if rcmdLen < 0 then Wait.returned (Res.panic, c)
  else
    match c.Read rcmdLen.toNat with
    | Wait.blocked => Wait.blocked
    | Wait.returned (_, some e, c1) => Wait.returned (Res.err e, c1)
    | Wait.returned (buf, none, c1) =>
      if buf.length ≠ rcmdLen.toNat then Wait.returned (Res.err Error.CmdSizeErr, c1)
      else Wait.returned (Res.ok buf, c1)

/-- The argument loop of `handleTCPConn` (source lines 92 to 109) on a `Conn`. -/
def Conn.argLoop : Nat → Conn → Int → Int → List (List Nat) →
    Option (Wait (Res (List (List Nat))) × List Event)
  | 0, _, _, _, _ => none
  | fuel + 1, c, i, argNum, args =>
    if i < argNum then
      match c.parseCmdSize 36 with
      | none => none
      | some Wait.blocked => some (Wait.blocked, [Event.parseSize 36])
      | some (Wait.returned (Res.err e, _)) =>
        some (Wait.returned (Res.err e), [Event.parseSize 36])
      | some (Wait.returned (Res.panic, _)) =>
        some (Wait.returned Res.panic, [Event.parseSize 36])
      | some (Wait.returned (Res.ok cmdLen, c1)) =>
        match c1.parseCmdData cmdLen with
        | Wait.blocked => some (Wait.blocked, [Event.parseSize 36, Event.parseData cmdLen])
        | Wait.returned (Res.err e, _) =>
          some (Wait.returned (Res.err e), [Event.parseSize 36, Event.parseData cmdLen])
        | Wait.returned (Res.panic, _) =>
          some (Wait.returned Res.panic, [Event.parseSize 36, Event.parseData cmdLen])
        | Wait.returned (Res.ok d, c2) =>
          match Conn.argLoop fuel c2 (wrapInt64 (i - 1)) argNum (args ++ [d]) with
          | none => none
          | some (r, evs) => some (r, Event.parseSize 36 :: Event.parseData cmdLen :: evs)
    else some (Wait.returned (Res.ok args), [])

/-- Source lines 86 to 121 of `handleTCPConn` on a `Conn`, with the deferred `conn.Close()`,
which runs when the handler returns and only then. -/
def Conn.handleArgs (env : Env) (c : Conn) (argNum : Int) : Option Outcome :=
  if argNum < 1 then some (Outcome.returned [Event.close])
  else
    match Conn.argLoop (c.data.length + 1) c 0 argNum (List.replicate argNum.toNat []) with
    | none => none
    | some (Wait.blocked, evs) => some (Outcome.blocked evs)
    | some (Wait.returned (Res.err _), evs) => some (Outcome.returned (evs ++ [Event.close]))
    | some (Wait.returned Res.panic, evs) =>
      some (Outcome.returned (evs ++ [Event.panic, Event.close]))
    | some (Wait.returned (Res.ok []), evs) =>
      some (Outcome.returned (evs ++ [Event.panic, Event.close]))
    | some (Wait.returned (Res.ok (cmd :: rest)), evs) =>
      if cmd = bytes "sub" then
        some (Outcome.returned
          (evs ++ Event.subscribe rest :: SubscribeTCPHandle env rest ++ [Event.close]))
      else some (Outcome.returned (evs ++ [Event.close]))

/-- Model of `handleTCPConn(conn)` on a `Conn`. -/
def Conn.handleTCPConn (env : Env) (c : Conn) : Option Outcome :=
  match c.parseCmdSize 42 with
  | none => none
  | some Wait.blocked => some (Outcome.blocked [Event.parseSize 42])
  | some (Wait.returned (Res.ok argNum, c1)) =>
    match Conn.handleArgs env c1 argNum with
    | none => none
    | some (Outcome.returned evs) => some (Outcome.returned (Event.parseSize 42 :: evs))
    | some (Outcome.blocked evs) => some (Outcome.blocked (Event.parseSize 42 :: evs))
  | some (Wait.returned (_, _)) => some (Outcome.returned [Event.parseSize 42, Event.close])

/-! ## The wire format of the specification -/

/-- Decimal digits of `k`, most significant first, with `fuel` bounding the
number of digits. -/
def decimalAux : Nat → Nat → List Nat → List Nat
  | 0, _, acc => acc
  | fuel + 1, k, acc =>
    if k < 10 then (48 + k) :: acc else decimalAux fuel (k / 10) ((48 + k % 10) :: acc)

/-- Base 10 digits of `k` as ASCII bytes. -/
def decimal (k : Nat) : List Nat := decimalAux (k + 1) k []

/-- Wire form of a size line of the specification: the marker byte, the
decimal digits, carriage return and line feed. -/
def specSizeLine (pfx k : Nat) : List Nat := pfx :: decimal k ++ [13, 10]

/-- Wire form of one argument: its length line, its bytes, the terminator. -/
def specEncodeArg (a : List Nat) : List Nat := specSizeLine 36 a.length ++ a ++ [13, 10]

/-- Wire form of a command of the specification: the count line, then every
argument in order. -/
def specEncodeCommand (args : List (List Nat)) : List Nat :=
  specSizeLine 42 args.length ++ (args.map specEncodeArg).flatten

/-- A default environment for concrete runs: authentication off, a 30 second
heartbeat, the marker `h` acknowledged with `+h`, an empty registry in which every
call succeeds, a peer that sends nothing. -/
def demoEnv : Env where
  Auth := 0
  HeartbeatSec := 30
  heartbeatMsg := [104]
  heartbeatBytes := [43, 104, 13, 10]
  Get := fun _ => none
  New := fun _ => some 0
  AuthToken := fun _ _ _ => true
  SendMsg := fun _ _ _ => true
  AddConn := fun _ _ _ => true
  RemoveConn := fun _ _ _ => true
  reads := []
  writeOk := fun _ => true

/-- An environment with authentication on: every key has the channel 3, and
the only token the channel accepts is `tok`. -/
def authEnv : Env :=
  { demoEnv with
    Auth := 1
    Get := fun _ => some 3
    AuthToken := fun _ tk _ => decide (tk = bytes "tok") }

/-! ## Classifying events -/

/-- The event is a call of `channel.Get`, `channel.New` or `AuthToken`: what a session does
before the replay. -/
def Event.isSetup : Event → Bool
  | Event.get _ => true
  | Event.new _ => true
  | Event.authToken _ _ _ => true
  | _ => false

/-- The event belongs to the heartbeat loop: a read deadline, a read or a
write on the connection. -/
def Event.isLoop : Event → Bool
  | Event.setReadDeadline _ => true
  | Event.read _ => true
  | Event.write _ _ => true
  | _ => false

/-- The event is a call of `channel.New`. -/
def Event.isNew : Event → Bool
  | Event.new _ => true
  | _ => false

/-- The event is a call of `AuthToken`. -/
def Event.isAuthToken : Event → Bool
  | Event.authToken _ _ _ => true
  | _ => false

/-- The event is a call of `SendMsg`. -/
def Event.isSendMsg : Event → Bool
  | Event.sendMsg _ _ _ => true
  | _ => false

/-- The event is a call of `AddConn`. -/
def Event.isAddConn : Event → Bool
  | Event.addConn _ _ _ => true
  | _ => false

/-- The event is a call of `RemoveConn`. -/
def Event.isRemoveConn : Event → Bool
  | Event.removeConn _ _ _ => true
  | _ => false

/-- The event is a write on the connection by the handler. -/
def Event.isWrite : Event → Bool
  | Event.write _ _ => true
  | _ => false

/-- The event is a read on the connection by the handler. -/
def Event.isRead : Event → Bool
  | Event.read _ => true
  | _ => false

/-- One successful round of the heartbeat loop on the marker byte `m`: the
deadline, the read of `m`, the acknowledgement written. -/
def heartbeatRound (env : Env) (heartbeat : Int) (m : Nat) : List Event :=
  [Event.setReadDeadline (deadlineNanos heartbeat), Event.read (some m),
    Event.write env.heartbeatBytes true]

/-- The call returned a value: no error, no panic. -/
def Res.isOk {α : Type} : Res α → Bool
  | Res.ok _ => true
  | _ => false

/-! ## Lemmas on the decoder -/

theorem splitLine_some (d : Nat) :
    ∀ (l line rest : List Nat), splitLine d l = some (line, rest) →
      line.getLast? = some d ∧ rest.length < l.length := by
  intro l
  induction l with
  | nil => intro line rest h; simp [splitLine] at h
  | cons b bs ih =>
    intro line rest h
    unfold splitLine at h
    by_cases hb : b = d
    · simp [hb] at h
      obtain ⟨h1, h2⟩ := h
      subst h1; subst h2
      simp
    · simp only [hb, if_false] at h
      cases hs : splitLine d bs with
      | none => simp [hs] at h
      | some pr =>
        obtain ⟨l1, r1⟩ := pr
        simp only [hs, Option.some.injEq, Prod.mk.injEq] at h
        obtain ⟨h1, h2⟩ := h
        subst h1; subst h2
        obtain ⟨ihl, ihr⟩ := ih l1 r1 hs
        refine ⟨?_, ?_⟩
        · cases l1 with
          | nil => simp at ihl
          | cons x xs => simpa [List.getLast?_cons_cons] using ihl
        · simp only [List.length_cons]; omega

/-- The line loop of `parseCmdSize` never leaves through its `break`: a line
returned by `ReadBytes(10)` with a nil error ends in the line feed, never in a
carriage return, so the loop reads on until the stream's error. -/
theorem parseCmdSizeLoop_err :
    ∀ (fuel : Nat) (rd : Reader) (cmdBuf : List Nat), rd.data.length < fuel →
      parseCmdSizeLoop fuel rd cmdBuf = some (Res.err rd.endErr, { rd with data := [] }) := by
  intro fuel
  induction fuel with
  | zero => intro rd cmdBuf h; omega
  | succ f ih =>
    intro rd cmdBuf h
    unfold parseCmdSizeLoop Reader.ReadBytes
    cases hs : splitLine 10 rd.data with
    | none => simp
    | some pr =>
      obtain ⟨line, rest⟩ := pr
      obtain ⟨hl, hr⟩ := splitLine_some 10 rd.data line rest hs
      simp only [hl]
      have h13 : ¬ (line.length > 0 ∧ some 10 = some 13) := by simp
      rw [if_neg h13]
      have := ih { rd with data := rest } (cmdBuf ++ line) (by simp only; omega)
      simpa using this

/-- On every stream and for every marker byte, `parseCmdSize` returns the stream's
error after consuming the whole stream. -/
theorem parseCmdSize_eq (rd : Reader) (pfx : Nat) :
    parseCmdSize rd pfx = some (Res.err rd.endErr, { rd with data := [] }) := by
  unfold parseCmdSize
  rw [parseCmdSizeLoop_err (rd.data.length + 1) rd _ (Nat.lt_succ_self _)]

/-- On every stream `handleTCPConn` makes one `parseCmdSize` call and closes. -/
theorem handleTCPConn_eq (env : Env) (rd : Reader) :
    handleTCPConn env rd = some [Event.parseSize 42, Event.close] := by
  unfold handleTCPConn
  rw [parseCmdSize_eq]

/-! ## The decoder claims -/

/-- C1, evaluated on the code at a valid encoding: the stream is the encoding
of the one argument command `hi`, that is `*1 CR LF $2 CR LF hi CR LF`; the count
parse of `handleTCPConn` returns the end of stream error instead of 1, and the
handler closes the connection having decoded no argument at all.  The same
holds on the encoding of every command. -/
theorem decode_round_trip_at_hi :
    specEncodeCommand [bytes "hi"] = bytes "*1\r\n$2\r\nhi\r\n" ∧
    parseCmdSize ⟨specEncodeCommand [bytes "hi"], Error.EOF⟩ 42
      = some (Res.err Error.EOF, ⟨[], Error.EOF⟩) ∧
    handleTCPConn demoEnv ⟨specEncodeCommand [bytes "hi"], Error.EOF⟩
      = some [Event.parseSize 42, Event.close] ∧
    (∀ (env : Env) (args : List (List Nat)) (e : Error),
      parseCmdSize ⟨specEncodeCommand args, e⟩ 42 = some (Res.err e, ⟨[], e⟩) ∧
      handleTCPConn env ⟨specEncodeCommand args, e⟩
        = some [Event.parseSize 42, Event.close]) :=
  ⟨by decide, by decide, by decide,
    fun env args e => ⟨parseCmdSize_eq _ 42, handleTCPConn_eq env _⟩⟩

/-- C2, evaluated on the code: on the stream `*1 CR LF` with the marker `*`, and
on `$12 CR LF` with the marker `$`, `parseCmdSize` returns the end of stream error,
not the sizes 1 and 12; and so it does for every marker byte `p`, every `k` and
whatever follows the line. -/
theorem parseCmdSize_at_size_lines :
    specSizeLine 42 1 = bytes "*1\r\n" ∧
    parseCmdSize ⟨specSizeLine 42 1, Error.EOF⟩ 42
      = some (Res.err Error.EOF, ⟨[], Error.EOF⟩) ∧
    parseCmdSize ⟨specSizeLine 36 12, Error.EOF⟩ 36
      = some (Res.err Error.EOF, ⟨[], Error.EOF⟩) ∧
    (∀ (p k : Nat) (rest : List Nat) (e : Error),
      parseCmdSize ⟨specSizeLine p k ++ rest, e⟩ p = some (Res.err e, ⟨[], e⟩)) :=
  ⟨by decide, by decide, by decide, fun p _ _ _ => parseCmdSize_eq _ p⟩

/-- C3, evaluated on the code: on the malformed lines `$x CR LF` (no number),
`*1 CR LF` read with the marker `$` (wrong marker) and `$ CR LF` (no digit), each a
complete line, `parseCmdSize` returns the stream's own error (here a connection
error numbered 7), not `CmdFmtErr`; on no stream whose own error is not `CmdFmtErr`
does it return `CmdFmtErr`. -/
theorem parseCmdSize_at_malformed_lines :
    parseCmdSize ⟨bytes "$x\r\n", Error.net 7⟩ 36
      = some (Res.err (Error.net 7), ⟨[], Error.net 7⟩) ∧
    parseCmdSize ⟨bytes "*1\r\n", Error.net 7⟩ 36
      = some (Res.err (Error.net 7), ⟨[], Error.net 7⟩) ∧
    parseCmdSize ⟨bytes "$\r\n", Error.net 7⟩ 36
      = some (Res.err (Error.net 7), ⟨[], Error.net 7⟩) ∧
    (∀ (rd rd1 : Reader) (p : Nat), rd.endErr ≠ Error.CmdFmtErr →
      parseCmdSize rd p ≠ some (Res.err Error.CmdFmtErr, rd1)) := by
  refine ⟨by decide, by decide, by decide, ?_⟩
  intro rd rd1 p hne h
  rw [parseCmdSize_eq] at h
  simp only [Option.some.injEq, Prod.mk.injEq, Res.err.injEq] at h
  exact hne h.1

/-- C4, evaluated on the code: with the declared length 3 and the five bytes
`sub CR LF` available, `parseCmdData` succeeds and returns all five bytes, the
terminator included, so the result has length 5 and is not `sub`; and the
integer parse that `SubscribeTCPHandle` applies to an argument rejects `5 CR LF`. -/
theorem parseCmdData_at_sub :
    parseCmdData ⟨bytes "sub\r\n", Error.EOF⟩ 3
      = (Res.ok (bytes "sub\r\n"), ⟨[], Error.EOF⟩) ∧
    (bytes "sub\r\n").length = 5 ∧
    bytes "sub\r\n" ≠ bytes "sub" ∧
    ParseInt (bytes "5") = some 5 ∧
    ParseInt (bytes "5\r\n") = none := by
  decide

theorem wrapInt64_of_mem (x : Int) (hlo : -(2 ^ 63) ≤ x) (hhi : x < 2 ^ 63) :
    wrapInt64 x = x := by
  unfold wrapInt64
  omega

/-- C5, evaluated on the code: with the declared length `2^63 - 1` and a stream
that has ended with no byte available (fewer than `n + 2` bytes are read), the
size `cmdLen + 2` wraps to a negative `int` and `parseCmdData` panics in `make` before any
read: it returns no error. -/
theorem parseCmdData_max_int_panics :
    (⟨[], Error.EOF⟩ : Reader).data.length < 9223372036854775807 + 2 ∧
    parseCmdData ⟨[], Error.EOF⟩ 9223372036854775807 = (Res.panic, ⟨[], Error.EOF⟩) ∧
    ¬ ∃ e rd1, parseCmdData ⟨[], Error.EOF⟩ 9223372036854775807 = (Res.err e, rd1) := by
  refine ⟨by decide, by decide, ?_⟩
  rintro ⟨e, rd1, h⟩
  have h2 : parseCmdData ⟨[], Error.EOF⟩ 9223372036854775807 = (Res.panic, ⟨[], Error.EOF⟩) := by
    decide
  rw [h2] at h
  cases h

/-- C6, evaluated on the code: on the stream `*0 CR LF $3 CR LF sub CR LF`, whose count
line declares 0 arguments, the count parse of `handleTCPConn` does not return 0 with
the bytes after the count line unread: it reads on through the length line and
the data of the argument, leaves the reader empty and returns the end of
stream error, so the handler returns for that error and not for the count. -/
theorem handleTCPConn_at_count_zero :
    parseCmdSize ⟨bytes "*0\r\n$3\r\nsub\r\n", Error.EOF⟩ 42
      = some (Res.err Error.EOF, ⟨[], Error.EOF⟩) ∧
    parseCmdSize ⟨bytes "*0\r\n$3\r\nsub\r\n", Error.EOF⟩ 42
      ≠ some (Res.ok 0, ⟨bytes "$3\r\nsub\r\n", Error.EOF⟩) ∧
    handleTCPConn demoEnv ⟨bytes "*0\r\n$3\r\nsub\r\n", Error.EOF⟩
      = some [Event.parseSize 42, Event.close] := by
  decide

/-- C7, evaluated on the code: on the encoding of the command `sub k 5` the
handler makes the count parse, gets the end of stream error and closes; the
subscription handler is not invoked with `k 5`, nor at all, on this stream and
on the encoding of every command that starts with `sub`. -/
theorem handleTCPConn_at_sub_k_5 :
    specEncodeCommand [bytes "sub", bytes "k", bytes "5"]
      = bytes "*3\r\n$3\r\nsub\r\n$1\r\nk\r\n$1\r\n5\r\n" ∧
    handleTCPConn demoEnv ⟨specEncodeCommand [bytes "sub", bytes "k", bytes "5"], Error.EOF⟩
      = some [Event.parseSize 42, Event.close] ∧
    Event.subscribe [bytes "k", bytes "5"] ∉ [Event.parseSize 42, Event.close] ∧
    (∀ (env : Env) (rest : List (List Nat)) (e : Error),
      handleTCPConn env ⟨specEncodeCommand (bytes "sub" :: rest), e⟩
        = some [Event.parseSize 42, Event.close]) :=
  ⟨by decide, by decide, by decide, fun env _ _ => handleTCPConn_eq env _⟩

/-- On a `Conn` the line loop of `parseCmdSize` returns only with the error that ends
the stream, and waits for ever when the peer keeps the connection open. -/
theorem parseCmdSizeLoop_on_conn :
    ∀ (fuel : Nat) (c : Conn) (cmdBuf : List Nat), c.data.length < fuel →
      Conn.parseCmdSizeLoop fuel c cmdBuf
        = some (match c.closing with
            | some e => Wait.returned (Res.err e, { c with data := [] })
            | none => Wait.blocked) := by
  intro fuel
  induction fuel with
  | zero => intro c cmdBuf h; omega
  | succ f ih =>
    intro c cmdBuf h
    unfold Conn.parseCmdSizeLoop Conn.ReadBytes
    cases hs : splitLine 10 c.data with
    | none =>
      cases hc : c.closing <;> simp
    | some pr =>
      obtain ⟨line, rest⟩ := pr
      obtain ⟨hl, hr⟩ := splitLine_some 10 c.data line rest hs
      simp only [hl]
      have h13 : ¬ (line.length > 0 ∧ some 10 = some 13) := by simp
      rw [if_neg h13]
      have := ih { c with data := rest } (cmdBuf ++ line) (by simp only; omega)
      simpa using this

theorem handleTCPConn_on_conn (env : Env) (c : Conn) :
    Conn.handleTCPConn env c
      = some (match c.closing with
          | some _ => Outcome.returned [Event.parseSize 42, Event.close]
          | none => Outcome.blocked [Event.parseSize 42]) := by
  unfold Conn.handleTCPConn Conn.parseCmdSize
  rw [parseCmdSizeLoop_on_conn (c.data.length + 1) c _ (Nat.lt_succ_self _)]
  cases c.closing <;> rfl

/-- C8, evaluated on the code: a client sends the complete command `pub k`, whose
name is not `sub`, and keeps the connection open.  The handler makes the count
parse and waits in it for ever: it never returns, so the deferred `conn.Close()` never
runs.  When the same bytes are followed by the end of the stream the handler
closes, on the read error.  On every open connection, whatever was sent, the
handler waits for ever without closing. -/
theorem handleTCPConn_at_unknown_command :
    specEncodeCommand [bytes "pub", bytes "k"] = bytes "*2\r\n$3\r\npub\r\n$1\r\nk\r\n" ∧
    Conn.handleTCPConn demoEnv ⟨specEncodeCommand [bytes "pub", bytes "k"], none⟩
      = some (Outcome.blocked [Event.parseSize 42]) ∧
    Event.close ∉ [Event.parseSize 42] ∧
    Conn.handleTCPConn demoEnv ⟨specEncodeCommand [bytes "pub", bytes "k"], some Error.EOF⟩
      = some (Outcome.returned [Event.parseSize 42, Event.close]) ∧
    (∀ (env : Env) (data : List Nat),
      Conn.handleTCPConn env ⟨data, none⟩ = some (Outcome.blocked [Event.parseSize 42])) :=
  ⟨by decide, by decide, by decide, by decide, fun env data => handleTCPConn_on_conn env _⟩

/-! ## The subscription session -/

/-- C9: when the argument list has fewer than 2 elements, or its element 1 is
not a base 10 signed 64 bit integer, or its element 2 is present and is not an
integer, `SubscribeTCPHandle` does nothing at all: no call to the registry or to a
channel, no read and no write on the connection. -/
theorem SubscribeTCPHandle_bad_arguments (env : Env) (args : List (List Nat))
    (h : args.length < 2 ∨ ParseInt (args.getD 1 []) = none ∨
      (2 < args.length ∧ Atoi (args.getD 2 []) = none)) :
    SubscribeTCPHandle env args = [] := by
  unfold SubscribeTCPHandle
  by_cases hlen : args.length < 2
  · simp [hlen]
  · rcases h with h | h | ⟨h2, h3⟩
    · exact absurd h hlen
    · simp only [hlen, if_false, h]
    · simp only [hlen, if_false, gt_iff_lt, h2, if_true, h3]
      cases ParseInt (args.getD 1 []) <;> rfl

theorem SubscribeTCPHandle_bad_arguments_witness :
    SubscribeTCPHandle demoEnv [bytes "k"] = [] ∧
    SubscribeTCPHandle demoEnv [bytes "k", bytes "5x"] = [] ∧
    SubscribeTCPHandle demoEnv [bytes "k", bytes "5", bytes "ten", bytes "tok"] = [] :=
  ⟨SubscribeTCPHandle_bad_arguments demoEnv [bytes "k"] (Or.inl (by decide)),
   SubscribeTCPHandle_bad_arguments demoEnv [bytes "k", bytes "5x"]
     (Or.inr (Or.inl (by decide))),
   SubscribeTCPHandle_bad_arguments demoEnv [bytes "k", bytes "5", bytes "ten", bytes "tok"]
     (Or.inr (Or.inr ⟨by decide, by decide⟩))⟩

/-- C10, evaluated on the code: with the well formed arguments `k`, `5` and
`36028797018963998` the value of argument 2 is 36028797018963998 seconds, but the
duration of line 204, `time.Second * time.Duration(heartbeat)`, wraps to 30000000000
nanoseconds: the session sets every read deadline 30 seconds ahead, and runs
exactly as with the argument `30`. -/
theorem SubscribeTCPHandle_at_huge_heartbeat :
    Atoi (bytes "36028797018963998") = some 36028797018963998 ∧
    deadlineNanos 36028797018963998 = 30000000000 ∧
    deadlineNanos 36028797018963998 ≠ 1000000000 * 36028797018963998 ∧
    SubscribeTCPHandle demoEnv [bytes "k", bytes "5", bytes "36028797018963998"]
      = [Event.get (bytes "k"), Event.new (bytes "k"), Event.sendMsg 0 5 (bytes "k"),
          Event.addConn 0 5 (bytes "k"), Event.setReadDeadline 30000000000, Event.read none,
          Event.removeConn 0 5 (bytes "k")] ∧
    SubscribeTCPHandle demoEnv [bytes "k", bytes "5", bytes "36028797018963998"]
      = SubscribeTCPHandle demoEnv [bytes "k", bytes "5", bytes "30"] := by
  decide

/-! ## Lemmas on the session -/

theorem heartbeatLoop_isLoop (env : Env) (heartbeat : Int) :
    ∀ (rs : List (Option Nat)) (w : Nat), ∀ e ∈ heartbeatLoop env heartbeat rs w,
      e.isLoop = true := by
  intro rs
  induction rs with
  | nil =>
    intro w e he
    simp only [heartbeatLoop, List.mem_cons, List.mem_singleton, List.not_mem_nil, or_false] at he
    rcases he with rfl | rfl <;> rfl
  | cons r rest ih =>
    intro w e he
    cases r with
    | none =>
      simp only [heartbeatLoop, List.mem_cons, List.mem_singleton, List.not_mem_nil, or_false] at he
      rcases he with rfl | rfl <;> rfl
    | some b =>
      unfold heartbeatLoop at he
      split_ifs at he
      · simp only [List.mem_cons] at he
        rcases he with rfl | rfl | rfl | he
        · rfl
        · rfl
        · rfl
        · exact ih (w + 1) e he
      · simp only [List.mem_cons, List.mem_singleton, List.not_mem_nil, or_false] at he
        rcases he with rfl | rfl | rfl <;> rfl
      · simp only [List.mem_cons, List.mem_singleton, List.not_mem_nil, or_false] at he
        rcases he with rfl | rfl <;> rfl

/-- The three ways the replay part of a session can run. -/
theorem sessionReplay_cases (env : Env) (c : Nat) (key : List Nat) (mid heartbeat : Int) :
    (env.SendMsg c mid key = false ∧
      sessionReplay env c key mid heartbeat = [Event.sendMsg c mid key]) ∨
    (env.SendMsg c mid key = true ∧ env.AddConn c mid key = false ∧
      sessionReplay env c key mid heartbeat
        = [Event.sendMsg c mid key, Event.addConn c mid key]) ∨
    (env.SendMsg c mid key = true ∧ env.AddConn c mid key = true ∧
      sessionReplay env c key mid heartbeat
        = Event.sendMsg c mid key :: Event.addConn c mid key ::
            (heartbeatLoop env heartbeat env.reads 0 ++ [Event.removeConn c mid key])) := by
  unfold sessionReplay
  cases hs : env.SendMsg c mid key
  · left; simp
  · right
    cases ha : env.AddConn c mid key
    · left; simp
    · right; simp

/-- A well formed argument list runs the session on the parsed values. -/
theorem SubscribeTCPHandle_wellformed (env : Env) (args : List (List Nat)) (mid hb : Int)
    (hlen : 2 ≤ args.length) (hmid : ParseInt (args.getD 1 []) = some mid)
    (hhb : 2 < args.length → Atoi (args.getD 2 []) = some hb) :
    SubscribeTCPHandle env args
      = subscribeSession env (args.getD 0 []) mid
          (if 2 < args.length then hb else env.HeartbeatSec)
          (if 3 < args.length then args.getD 3 [] else []) := by
  unfold SubscribeTCPHandle
  have hlen2 : ¬ args.length < 2 := by omega
  simp only [hlen2, if_false, hmid, gt_iff_lt]
  by_cases h2 : 2 < args.length
  · simp only [h2, if_true, hhb h2]
  · have h3 : ¬ 3 < args.length := by omega
    simp only [h2, h3, if_false]

/-- Every run of `SubscribeTCPHandle` is either empty or the session on argument 0 and
the value of argument 1. -/
theorem SubscribeTCPHandle_cases (env : Env) (args : List (List Nat)) :
    SubscribeTCPHandle env args = [] ∨
    ∃ mid hb token, ParseInt (args.getD 1 []) = some mid ∧
      SubscribeTCPHandle env args = subscribeSession env (args.getD 0 []) mid hb token := by
  unfold SubscribeTCPHandle
  by_cases hlen : args.length < 2
  · left; simp only [hlen, if_true]
  · simp only [hlen, if_false]
    cases hmid : ParseInt (args.getD 1 []) with
    | none => left; rfl
    | some mid =>
      simp only
      cases hhb : (if args.length > 2 then Atoi (args.getD 2 []) else some env.HeartbeatSec) with
      | none => left; rfl
      | some hb => right; exact ⟨mid, hb, _, rfl, rfl⟩

/-- Shape of a session: calls of the registry and of the authentication, then
nothing more or the replay part on one channel. -/
theorem subscribeSession_shape (env : Env) (key : List Nat) (mid heartbeat : Int)
    (token : List Nat) :
    ∃ pre post, subscribeSession env key mid heartbeat token = pre ++ post ∧
      (∀ e ∈ pre, e.isSetup = true) ∧
      (post = [] ∨ ∃ c, post = sessionReplay env c key mid heartbeat) := by
  unfold subscribeSession sessionAuth
  cases hg : env.Get key with
  | some c =>
    simp only
    by_cases h1 : env.Auth = 1
    · simp only [h1, if_true]
      cases ht : env.AuthToken c token key
      · refine ⟨[Event.get key, Event.authToken c token key], [], by simp, ?_, Or.inl rfl⟩
        intro e he
        simp only [List.mem_cons, List.mem_singleton, List.not_mem_nil, or_false] at he
        rcases he with rfl | rfl <;> rfl
      · refine ⟨[Event.get key, Event.authToken c token key], _, by simp, ?_, Or.inr ⟨c, rfl⟩⟩
        intro e he
        simp only [List.mem_cons, List.mem_singleton, List.not_mem_nil, or_false] at he
        rcases he with rfl | rfl <;> rfl
    · simp only [h1, if_false]
      refine ⟨[Event.get key], _, by simp, ?_, Or.inr ⟨c, rfl⟩⟩
      intro e he
      simp only [List.mem_singleton] at he
      subst he; rfl
  | none =>
    simp only
    by_cases h0 : env.Auth = 0
    · have h1 : ¬ env.Auth = 1 := by omega
      simp only [h0, if_true]
      cases hn : env.New key with
      | none =>
        refine ⟨[Event.get key, Event.new key], [], by simp, ?_, Or.inl rfl⟩
        intro e he
        simp only [List.mem_cons, List.mem_singleton, List.not_mem_nil, or_false] at he
        rcases he with rfl | rfl <;> rfl
      | some c =>
        have h01 : ¬ ((0 : Int) = 1) := by decide
        simp only [h01, if_false]
        refine ⟨[Event.get key, Event.new key], _, by simp, ?_, Or.inr ⟨c, rfl⟩⟩
        intro e he
        simp only [List.mem_cons, List.mem_singleton, List.not_mem_nil, or_false] at he
        rcases he with rfl | rfl <;> rfl
    · simp only [h0, if_false]
      refine ⟨[Event.get key], [], by simp, ?_, Or.inl rfl⟩
      intro e he
      simp only [List.mem_singleton] at he
      subst he; rfl

theorem countP_eq_zero_of_forall (p q : Event → Bool) (l : List Event)
    (hq : ∀ e ∈ l, q e = true) (hpq : ∀ e, q e = true → p e = false) :
    l.countP p = 0 := by
  rw [List.countP_eq_zero]
  intro e he
  rw [hpq e (hq e he)]
  simp

/-- Shape of every run of `SubscribeTCPHandle`: setup calls, then nothing, or a failed
replay, or a replay and a failed registration, or replay, registration, the
heartbeat loop and one `RemoveConn`; the channel calls are on one channel, with the
value of argument 1 and with argument 0. -/
theorem SubscribeTCPHandle_shape (env : Env) (args : List (List Nat)) :
    ∃ pre post, SubscribeTCPHandle env args = pre ++ post ∧
      (∀ e ∈ pre, e.isSetup = true) ∧
      (post = [] ∨
        ∃ c m k, ParseInt (args.getD 1 []) = some m ∧ k = args.getD 0 [] ∧
          ((env.SendMsg c m k = false ∧ post = [Event.sendMsg c m k]) ∨
           (env.SendMsg c m k = true ∧ env.AddConn c m k = false ∧
              post = [Event.sendMsg c m k, Event.addConn c m k]) ∨
           (env.SendMsg c m k = true ∧ env.AddConn c m k = true ∧
              ∃ loop, (∀ e ∈ loop, e.isLoop = true) ∧
                post = Event.sendMsg c m k :: Event.addConn c m k ::
                  (loop ++ [Event.removeConn c m k])))) := by
  rcases SubscribeTCPHandle_cases env args with h | ⟨mid, hb, token, hmid, h⟩
  · exact ⟨[], [], by rw [h]; rfl, by simp, Or.inl rfl⟩
  · obtain ⟨pre, post, ht, hpre, hpost⟩ :=
      subscribeSession_shape env (args.getD 0 []) mid hb token
    refine ⟨pre, post, by rw [h, ht], hpre, ?_⟩
    rcases hpost with hp | ⟨c, hp⟩
    · exact Or.inl hp
    · right
      refine ⟨c, mid, args.getD 0 [], hmid, rfl, ?_⟩
      rcases sessionReplay_cases env c (args.getD 0 []) mid hb with
        ⟨hs, hr⟩ | ⟨hs, ha, hr⟩ | ⟨hs, ha, hr⟩
      · exact Or.inl ⟨hs, by rw [hp, hr]⟩
      · exact Or.inr (Or.inl ⟨hs, ha, by rw [hp, hr]⟩)
      · exact Or.inr (Or.inr ⟨hs, ha, _, heartbeatLoop_isLoop env hb _ _, by rw [hp, hr]⟩)

/-- The replay part of a session holds no event on which `p` is true, when `p` is
false on `SendMsg`, `AddConn`, `RemoveConn` and on the events of the heartbeat loop. -/
theorem sessionReplay_countP (env : Env) (c : Nat) (key : List Nat) (mid heartbeat : Int)
    (p : Event → Bool) (hs : ∀ a m k, p (Event.sendMsg a m k) = false)
    (ha : ∀ a m k, p (Event.addConn a m k) = false)
    (hr : ∀ a m k, p (Event.removeConn a m k) = false)
    (hl : ∀ e, e.isLoop = true → p e = false) :
    (sessionReplay env c key mid heartbeat).countP p = 0 := by
  have hloop : (heartbeatLoop env heartbeat env.reads 0).countP p = 0 :=
    countP_eq_zero_of_forall p Event.isLoop _ (heartbeatLoop_isLoop env heartbeat _ _) hl
  rcases sessionReplay_cases env c key mid heartbeat with
    ⟨_, h⟩ | ⟨_, _, h⟩ | ⟨_, _, h⟩
  · rw [h]; simp [List.countP_cons, hs]
  · rw [h]; simp [List.countP_cons, hs, ha]
  · rw [h]; simp [List.countP_cons, List.countP_append, hs, ha, hr, hloop]

theorem sessionReplay_no_authToken (env : Env) (c : Nat) (key : List Nat)
    (mid heartbeat : Int) (a : Nat) (tk k : List Nat) :
    Event.authToken a tk k ∉ sessionReplay env c key mid heartbeat := by
  intro hmem
  have h0 := sessionReplay_countP env c key mid heartbeat Event.isAuthToken
    (fun _ _ _ => rfl) (fun _ _ _ => rfl) (fun _ _ _ => rfl)
    (fun e he => by cases e <;> simp_all [Event.isLoop, Event.isAuthToken])
  have hpos : 0 < (sessionReplay env c key mid heartbeat).countP Event.isAuthToken :=
    List.countP_pos_iff.mpr ⟨_, hmem, rfl⟩
  omega

/-! ## The session claims -/

/-- C11: for a well formed request whose key `channel.Get` does not find: with
`Conf.Auth = 0` the handler calls `channel.New(key)` exactly once, goes on with the new
channel to the replay, the registration and the heartbeat loop when the call
succeeds, and ends at once when it fails; with `Conf.Auth = 1` it ends after the
`Get`, with no `New`, `AuthToken`, `SendMsg` or `AddConn`.  When `channel.Get` finds the key,
`channel.New` is never called. -/
theorem SubscribeTCPHandle_channel_resolution (env : Env) (args : List (List Nat))
    (mid hb : Int) (hlen : 2 ≤ args.length) (hmid : ParseInt (args.getD 1 []) = some mid)
    (hhb : 2 < args.length → Atoi (args.getD 2 []) = some hb) :
    (env.Get (args.getD 0 []) = none → env.Auth = 0 →
      (SubscribeTCPHandle env args).countP Event.isNew = 1 ∧
      (∀ c, env.New (args.getD 0 []) = some c →
        SubscribeTCPHandle env args
          = Event.get (args.getD 0 []) :: Event.new (args.getD 0 []) ::
              sessionReplay env c (args.getD 0 []) mid
                (if 2 < args.length then hb else env.HeartbeatSec) ∧
        (env.SendMsg c mid (args.getD 0 []) = true →
          env.AddConn c mid (args.getD 0 []) = true →
          SubscribeTCPHandle env args
            = Event.get (args.getD 0 []) :: Event.new (args.getD 0 []) ::
                Event.sendMsg c mid (args.getD 0 []) ::
                Event.addConn c mid (args.getD 0 []) ::
                (heartbeatLoop env (if 2 < args.length then hb else env.HeartbeatSec)
                    env.reads 0
                  ++ [Event.removeConn c mid (args.getD 0 [])]))) ∧
      (env.New (args.getD 0 []) = none →
        SubscribeTCPHandle env args
          = [Event.get (args.getD 0 []), Event.new (args.getD 0 [])])) ∧
    (env.Get (args.getD 0 []) = none → env.Auth = 1 →
      SubscribeTCPHandle env args = [Event.get (args.getD 0 [])]) ∧
    (∀ c, env.Get (args.getD 0 []) = some c →
      (SubscribeTCPHandle env args).countP Event.isNew = 0) := by
  rw [SubscribeTCPHandle_wellformed env args mid hb hlen hmid hhb]
  have hnew : ∀ c hbv, (sessionReplay env c (args.getD 0 []) mid hbv).countP Event.isNew = 0 :=
    fun c hbv => sessionReplay_countP env c _ mid hbv Event.isNew
      (fun _ _ _ => rfl) (fun _ _ _ => rfl) (fun _ _ _ => rfl)
      (fun e he => by cases e <;> simp_all [Event.isLoop, Event.isNew])
  have h01 : ¬ ((0 : Int) = 1) := by decide
  refine ⟨?_, ?_, ?_⟩
  · intro hg h0
    unfold subscribeSession sessionAuth
    simp only [hg, h0, if_true, h01, if_false]
    refine ⟨?_, ?_, ?_⟩
    · cases hn : env.New (args.getD 0 []) with
      | none => simp only [List.countP_cons, List.countP_nil, Event.isNew]; rfl
      | some c => simp only [List.countP_cons, hnew, Event.isNew]; rfl
    · intro c hn
      simp only [hn, true_and]
      intro hs ha
      unfold sessionReplay
      simp only [hs, ha, if_true]
    · intro hn
      simp only [hn]
  · intro hg h1
    unfold subscribeSession
    have h10 : ¬ (env.Auth = 0) := by omega
    simp only [hg, h10, if_false]
  · intro c hg
    unfold subscribeSession sessionAuth
    simp only [hg]
    by_cases h1 : env.Auth = 1
    · simp only [h1, if_true]
      cases env.AuthToken c (if 3 < args.length then args.getD 3 [] else []) (args.getD 0 [])
      · simp only [List.countP_cons, List.countP_nil, Event.isNew]; rfl
      · simp only [List.countP_cons, hnew, Event.isNew, if_true]; rfl
    · simp only [h1, if_false]
      simp only [List.countP_cons, hnew, Event.isNew]; rfl

theorem SubscribeTCPHandle_channel_resolution_witness :
    SubscribeTCPHandle demoEnv [bytes "k", bytes "5"]
      = [Event.get (bytes "k"), Event.new (bytes "k"), Event.sendMsg 0 5 (bytes "k"),
          Event.addConn 0 5 (bytes "k"), Event.setReadDeadline 30000000000, Event.read none,
          Event.removeConn 0 5 (bytes "k")] :=
  ((((SubscribeTCPHandle_channel_resolution demoEnv [bytes "k", bytes "5"] 5 0
    (by decide) (by decide) (by decide)).1 rfl rfl).2.1 0 rfl).2 rfl rfl)

/-- C12: for a well formed request whose channel exists, with `Conf.Auth = 1` the
handler calls `AuthToken(token, key)` exactly once, right after the `Get` and before
any `SendMsg` or `AddConn`, and when the call fails the session ends there, with no
`SendMsg`, `AddConn` or `RemoveConn`; with `Conf.Auth = 0` no run calls `AuthToken`. -/
theorem SubscribeTCPHandle_auth_gate (env : Env) (args : List (List Nat))
    (mid hb : Int) (hlen : 2 ≤ args.length) (hmid : ParseInt (args.getD 1 []) = some mid)
    (hhb : 2 < args.length → Atoi (args.getD 2 []) = some hb) :
    (env.Auth = 1 → ∀ c, env.Get (args.getD 0 []) = some c →
      (SubscribeTCPHandle env args).countP Event.isAuthToken = 1 ∧
      SubscribeTCPHandle env args
        = Event.get (args.getD 0 []) ::
            Event.authToken c (if 3 < args.length then args.getD 3 [] else [])
              (args.getD 0 []) ::
            (if env.AuthToken c (if 3 < args.length then args.getD 3 [] else [])
                (args.getD 0 []) = true
              then sessionReplay env c (args.getD 0 []) mid
                (if 2 < args.length then hb else env.HeartbeatSec)
              else []) ∧
      (env.AuthToken c (if 3 < args.length then args.getD 3 [] else [])
          (args.getD 0 []) = false →
        SubscribeTCPHandle env args
          = [Event.get (args.getD 0 []),
              Event.authToken c (if 3 < args.length then args.getD 3 [] else [])
                (args.getD 0 [])])) ∧
    (env.Auth = 0 → (SubscribeTCPHandle env args).countP Event.isAuthToken = 0) := by
  rw [SubscribeTCPHandle_wellformed env args mid hb hlen hmid hhb]
  have hauth : ∀ c hbv,
      (sessionReplay env c (args.getD 0 []) mid hbv).countP Event.isAuthToken = 0 :=
    fun c hbv => sessionReplay_countP env c _ mid hbv Event.isAuthToken
      (fun _ _ _ => rfl) (fun _ _ _ => rfl) (fun _ _ _ => rfl)
      (fun e he => by cases e <;> simp_all [Event.isLoop, Event.isAuthToken])
  have h01 : ¬ ((0 : Int) = 1) := by decide
  refine ⟨?_, ?_⟩
  · intro h1 c hg
    unfold subscribeSession sessionAuth
    simp only [hg, h1, if_true]
    refine ⟨?_, trivial, ?_⟩
    · cases env.AuthToken c (if 3 < args.length then args.getD 3 [] else []) (args.getD 0 [])
      · simp only [List.countP_cons, List.countP_nil, Event.isAuthToken]; rfl
      · simp only [List.countP_cons, hauth, Event.isAuthToken, if_true]; rfl
    · intro hf
      simp only [hf]
      rfl
  · intro h0
    unfold subscribeSession sessionAuth
    simp only [h0, if_true, h01, if_false]
    cases env.Get (args.getD 0 []) with
    | some c => simp only [List.countP_cons, hauth, Event.isAuthToken]; rfl
    | none =>
      cases env.New (args.getD 0 []) with
      | some c => simp only [List.countP_cons, hauth, Event.isAuthToken]; rfl
      | none => simp only [List.countP_cons, List.countP_nil, Event.isAuthToken]; rfl

theorem SubscribeTCPHandle_auth_gate_witness :
    SubscribeTCPHandle authEnv [bytes "k", bytes "5", bytes "10", bytes "bad"]
      = [Event.get (bytes "k"), Event.authToken 3 (bytes "bad") (bytes "k")] :=
  ((SubscribeTCPHandle_auth_gate authEnv [bytes "k", bytes "5", bytes "10", bytes "bad"] 5 10
    (by decide) (by decide) (fun _ => by decide)).1 rfl 3 rfl).2.2 (by decide)

theorem isSetup_not_channel (e : Event) (h : e.isSetup = true) :
    e.isSendMsg = false ∧ e.isAddConn = false ∧ e.isRemoveConn = false := by
  cases e <;> simp_all [Event.isSetup, Event.isSendMsg, Event.isAddConn, Event.isRemoveConn]

theorem isLoop_not_channel (e : Event) (h : e.isLoop = true) :
    e.isSendMsg = false ∧ e.isAddConn = false ∧ e.isRemoveConn = false := by
  cases e <;> simp_all [Event.isLoop, Event.isSendMsg, Event.isAddConn, Event.isRemoveConn]

/-- C13: in every run of `SubscribeTCPHandle`, `AddConn` is called at most once; a call of
`AddConn` comes right after a `SendMsg` call on the same channel, mid and key that
returned no error, with no `AddConn` before it; and when a `SendMsg` call returns an error
there is no `AddConn` call in the run. -/
theorem SubscribeTCPHandle_replay_before_registration (env : Env) (args : List (List Nat)) :
    (SubscribeTCPHandle env args).countP Event.isAddConn ≤ 1 ∧
    (∀ c m k, Event.addConn c m k ∈ SubscribeTCPHandle env args →
      env.SendMsg c m k = true ∧
      ∃ before later, SubscribeTCPHandle env args
          = before ++ Event.sendMsg c m k :: Event.addConn c m k :: later ∧
        before.countP Event.isAddConn = 0) ∧
    (∀ c m k, Event.sendMsg c m k ∈ SubscribeTCPHandle env args →
      env.SendMsg c m k = false →
      (SubscribeTCPHandle env args).countP Event.isAddConn = 0) := by
  obtain ⟨pre, post, ht, hpre, hpost⟩ := SubscribeTCPHandle_shape env args
  rw [ht]
  have hpreA : pre.countP Event.isAddConn = 0 :=
    countP_eq_zero_of_forall _ Event.isSetup pre hpre (fun e he => (isSetup_not_channel e he).2.1)
  have hpreNoAdd : ∀ c m k, Event.addConn c m k ∉ pre := by
    intro c m k hmem
    have := (isSetup_not_channel _ (hpre _ hmem)).2.1
    simp [Event.isAddConn] at this
  have hpreNoSend : ∀ c m k, Event.sendMsg c m k ∉ pre := by
    intro c m k hmem
    have := (isSetup_not_channel _ (hpre _ hmem)).1
    simp [Event.isSendMsg] at this
  rcases hpost with rfl | ⟨c, m, k, _, _, ⟨hs, rfl⟩ | ⟨hs, ha, rfl⟩ | ⟨hs, ha, loop, hloop, rfl⟩⟩
  · refine ⟨by simp [hpreA], ?_, ?_⟩
    · intro c m k hmem
      simp only [List.append_nil] at hmem
      exact absurd hmem (hpreNoAdd c m k)
    · intro c m k _ _
      simp [hpreA]
  · refine ⟨?_, ?_, ?_⟩
    · simp only [List.countP_append, hpreA, List.countP_cons, List.countP_nil, Event.isAddConn]
      simp
    · intro c1 m1 k1 hmem
      simp only [List.mem_append, List.mem_singleton] at hmem
      rcases hmem with hmem | hmem
      · exact absurd hmem (hpreNoAdd c1 m1 k1)
      · cases hmem
    · intro c1 m1 k1 _ _
      simp only [List.countP_append, hpreA, List.countP_cons, List.countP_nil, Event.isAddConn]
      simp
  · refine ⟨?_, ?_, ?_⟩
    · simp only [List.countP_append, hpreA, List.countP_cons, List.countP_nil, Event.isAddConn]
      simp
    · intro c1 m1 k1 hmem
      simp only [List.mem_append, List.mem_cons, List.mem_singleton, List.not_mem_nil,
        or_false] at hmem
      rcases hmem with hmem | hmem | hmem
      · exact absurd hmem (hpreNoAdd c1 m1 k1)
      · cases hmem
      · cases hmem
        exact ⟨hs, pre, [], rfl, hpreA⟩
    · intro c1 m1 k1 hmem hf
      simp only [List.mem_append, List.mem_cons, List.mem_singleton, List.not_mem_nil,
        or_false] at hmem
      rcases hmem with hmem | hmem | hmem
      · exact absurd hmem (hpreNoSend c1 m1 k1)
      · cases hmem
        rw [hs] at hf
        cases hf
      · cases hmem
  · have hloopA : loop.countP Event.isAddConn = 0 :=
      countP_eq_zero_of_forall _ Event.isLoop loop hloop (fun e he => (isLoop_not_channel e he).2.1)
    have hloopNoAdd : ∀ c m k, Event.addConn c m k ∉ loop := by
      intro c m k hmem
      have := (isLoop_not_channel _ (hloop _ hmem)).2.1
      simp [Event.isAddConn] at this
    have hloopNoSend : ∀ c m k, Event.sendMsg c m k ∉ loop := by
      intro c m k hmem
      have := (isLoop_not_channel _ (hloop _ hmem)).1
      simp [Event.isSendMsg] at this
    refine ⟨?_, ?_, ?_⟩
    · simp only [List.countP_append, hpreA, hloopA, List.countP_cons, List.countP_nil,
        Event.isAddConn]
      simp
    · intro c1 m1 k1 hmem
      simp only [List.mem_append, List.mem_cons, List.mem_singleton, List.not_mem_nil,
        or_false] at hmem
      rcases hmem with hmem | hmem | hmem | hmem | hmem
      · exact absurd hmem (hpreNoAdd c1 m1 k1)
      · cases hmem
      · cases hmem
        exact ⟨hs, pre, _, rfl, hpreA⟩
      · exact absurd hmem (hloopNoAdd c1 m1 k1)
      · cases hmem
    · intro c1 m1 k1 hmem hf
      simp only [List.mem_append, List.mem_cons, List.mem_singleton, List.not_mem_nil,
        or_false] at hmem
      rcases hmem with hmem | hmem | hmem | hmem | hmem
      · exact absurd hmem (hpreNoSend c1 m1 k1)
      · cases hmem
        rw [hs] at hf
        cases hf
      · cases hmem
      · exact absurd hmem (hloopNoSend c1 m1 k1)
      · cases hmem

theorem SubscribeTCPHandle_replay_before_registration_witness :
    demoEnv.SendMsg 0 5 (bytes "k") = true ∧
    ∃ before later, SubscribeTCPHandle demoEnv [bytes "k", bytes "5"]
        = before ++ Event.sendMsg 0 5 (bytes "k") :: Event.addConn 0 5 (bytes "k") :: later ∧
      before.countP Event.isAddConn = 0 :=
  (SubscribeTCPHandle_replay_before_registration demoEnv [bytes "k", bytes "5"]).2.1
    0 5 (bytes "k") (by decide)

/-- C14: in every run of `SubscribeTCPHandle`, when `AddConn` was called and returned no
error, `RemoveConn` is called exactly once, on the same channel, mid and key, as the
last call of the run, whatever the reads and writes of the heartbeat loop and
whatever `RemoveConn` itself returns; when no `AddConn` call returned without error,
`RemoveConn` is not called. -/
theorem SubscribeTCPHandle_deregistration (env : Env) (args : List (List Nat)) :
    (∀ c m k, Event.addConn c m k ∈ SubscribeTCPHandle env args →
      env.AddConn c m k = true →
      (SubscribeTCPHandle env args).countP Event.isRemoveConn = 1 ∧
      (SubscribeTCPHandle env args).getLast? = some (Event.removeConn c m k)) ∧
    ((∀ c m k, Event.addConn c m k ∈ SubscribeTCPHandle env args →
        env.AddConn c m k = false) →
      (SubscribeTCPHandle env args).countP Event.isRemoveConn = 0) := by
  obtain ⟨pre, post, ht, hpre, hpost⟩ := SubscribeTCPHandle_shape env args
  rw [ht]
  have hpreR : pre.countP Event.isRemoveConn = 0 :=
    countP_eq_zero_of_forall _ Event.isSetup pre hpre (fun e he => (isSetup_not_channel e he).2.2)
  have hpreNoAdd : ∀ c m k, Event.addConn c m k ∉ pre := by
    intro c m k hmem
    have := (isSetup_not_channel _ (hpre _ hmem)).2.1
    simp [Event.isAddConn] at this
  rcases hpost with rfl | ⟨c, m, k, _, _, ⟨hs, rfl⟩ | ⟨hs, ha, rfl⟩ | ⟨hs, ha, loop, hloop, rfl⟩⟩
  · refine ⟨?_, ?_⟩
    · intro c m k hmem
      simp only [List.append_nil] at hmem
      exact absurd hmem (hpreNoAdd c m k)
    · intro _
      simp [hpreR]
  · refine ⟨?_, ?_⟩
    · intro c1 m1 k1 hmem
      simp only [List.mem_append, List.mem_singleton] at hmem
      rcases hmem with hmem | hmem
      · exact absurd hmem (hpreNoAdd c1 m1 k1)
      · cases hmem
    · intro _
      simp only [List.countP_append, hpreR, List.countP_cons, List.countP_nil,
        Event.isRemoveConn]
      simp
  · refine ⟨?_, ?_⟩
    · intro c1 m1 k1 hmem hok
      simp only [List.mem_append, List.mem_cons, List.mem_singleton, List.not_mem_nil,
        or_false] at hmem
      rcases hmem with hmem | hmem | hmem
      · exact absurd hmem (hpreNoAdd c1 m1 k1)
      · cases hmem
      · cases hmem
        rw [ha] at hok
        cases hok
    · intro _
      simp only [List.countP_append, hpreR, List.countP_cons, List.countP_nil,
        Event.isRemoveConn]
      simp
  · have hloopR : loop.countP Event.isRemoveConn = 0 :=
      countP_eq_zero_of_forall _ Event.isLoop loop hloop (fun e he => (isLoop_not_channel e he).2.2)
    have hloopNoAdd : ∀ c m k, Event.addConn c m k ∉ loop := by
      intro c m k hmem
      have := (isLoop_not_channel _ (hloop _ hmem)).2.1
      simp [Event.isAddConn] at this
    refine ⟨?_, ?_⟩
    · intro c1 m1 k1 hmem _
      simp only [List.mem_append, List.mem_cons, List.mem_singleton, List.not_mem_nil,
        or_false] at hmem
      rcases hmem with hmem | hmem | hmem | hmem | hmem
      · exact absurd hmem (hpreNoAdd c1 m1 k1)
      · cases hmem
      · cases hmem
        refine ⟨?_, ?_⟩
        · simp only [List.countP_append, hpreR, hloopR, List.countP_cons, List.countP_nil,
            Event.isRemoveConn]
          simp
        · rw [show pre ++ Event.sendMsg c m k :: Event.addConn c m k ::
                (loop ++ [Event.removeConn c m k])
              = (pre ++ Event.sendMsg c m k :: Event.addConn c m k :: loop)
                ++ [Event.removeConn c m k] by simp]
          exact List.getLast?_concat _
      · exact absurd hmem (hloopNoAdd c1 m1 k1)
      · cases hmem
    · intro hall
      have := hall c m k (by simp)
      rw [ha] at this
      cases this

theorem SubscribeTCPHandle_deregistration_witness :
    (SubscribeTCPHandle demoEnv [bytes "k", bytes "5"]).countP Event.isRemoveConn = 1 ∧
    (SubscribeTCPHandle demoEnv [bytes "k", bytes "5"]).getLast?
      = some (Event.removeConn 0 5 (bytes "k")) :=
  (SubscribeTCPHandle_deregistration demoEnv [bytes "k", bytes "5"]).1
    0 5 (bytes "k") (by decide) rfl

/-- C17: in every run of `SubscribeTCPHandle`, every `SendMsg`, `AddConn` and `RemoveConn` call is on
one and the same channel, with the int64 value of argument 1 as mid and the
bytes of argument 0 as key. -/
theorem SubscribeTCPHandle_fixed_triple (env : Env) (args : List (List Nat)) :
    ∃ c0, ∀ e ∈ SubscribeTCPHandle env args, ∀ c m k,
      e = Event.sendMsg c m k ∨ e = Event.addConn c m k ∨ e = Event.removeConn c m k →
      c = c0 ∧ ParseInt (args.getD 1 []) = some m ∧ k = args.getD 0 [] := by
  obtain ⟨pre, post, ht, hpre, hpost⟩ := SubscribeTCPHandle_shape env args
  rw [ht]
  have hpreNo : ∀ e ∈ pre, ∀ c m k,
      e = Event.sendMsg c m k ∨ e = Event.addConn c m k ∨ e = Event.removeConn c m k →
      False := by
    intro e he c m k h
    have hch := isSetup_not_channel e (hpre e he)
    rcases h with rfl | rfl | rfl
    · simp [Event.isSendMsg] at hch
    · simp [Event.isAddConn] at hch
    · simp [Event.isRemoveConn] at hch
  rcases hpost with rfl | ⟨c, m, k, hm, hk, ⟨hs, rfl⟩ | ⟨hs, ha, rfl⟩ | ⟨hs, ha, loop, hloop, rfl⟩⟩
  · refine ⟨0, ?_⟩
    intro e he c m k h
    simp only [List.append_nil] at he
    exact absurd h (hpreNo e he c m k)
  · refine ⟨c, ?_⟩
    intro e he c1 m1 k1 h
    simp only [List.mem_append, List.mem_singleton] at he
    rcases he with he | rfl
    · exact absurd h (hpreNo e he c1 m1 k1)
    · rcases h with h | h | h <;> cases h
      exact ⟨rfl, hm, hk⟩
  · refine ⟨c, ?_⟩
    intro e he c1 m1 k1 h
    simp only [List.mem_append, List.mem_cons, List.mem_singleton, List.not_mem_nil,
      or_false] at he
    rcases he with he | rfl | rfl
    · exact absurd h (hpreNo e he c1 m1 k1)
    · rcases h with h | h | h <;> cases h
      exact ⟨rfl, hm, hk⟩
    · rcases h with h | h | h <;> cases h
      exact ⟨rfl, hm, hk⟩
  · have hloopNo : ∀ e ∈ loop, ∀ c m k,
        e = Event.sendMsg c m k ∨ e = Event.addConn c m k ∨ e = Event.removeConn c m k →
        False := by
      intro e he c m k h
      have hch := isLoop_not_channel e (hloop e he)
      rcases h with rfl | rfl | rfl
      · simp [Event.isSendMsg] at hch
      · simp [Event.isAddConn] at hch
      · simp [Event.isRemoveConn] at hch
    refine ⟨c, ?_⟩
    intro e he c1 m1 k1 h
    simp only [List.mem_append, List.mem_cons, List.mem_singleton, List.not_mem_nil,
      or_false] at he
    rcases he with he | rfl | rfl | he | rfl
    · exact absurd h (hpreNo e he c1 m1 k1)
    · rcases h with h | h | h <;> cases h
      exact ⟨rfl, hm, hk⟩
    · rcases h with h | h | h <;> cases h
      exact ⟨rfl, hm, hk⟩
    · exact absurd h (hloopNo e he c1 m1 k1)
    · rcases h with h | h | h <;> cases h
      exact ⟨rfl, hm, hk⟩

/-- C18: for a well formed request and a `Conf.Auth` that is neither 0 nor 1, an
absent channel ends the session after the `Get`, with no `channel.New`, and an existing
channel goes straight to `SendMsg` and, when that succeeds, `AddConn`, with no `AuthToken`;
and whatever `Conf.Auth` is, `AuthToken` is called in the run if and only if `Conf.Auth` is 1
and `channel.Get` found the channel. -/
theorem SubscribeTCPHandle_auth_other_values (env : Env) (args : List (List Nat))
    (mid hb : Int) (hlen : 2 ≤ args.length) (hmid : ParseInt (args.getD 1 []) = some mid)
    (hhb : 2 < args.length → Atoi (args.getD 2 []) = some hb) :
    (env.Auth ≠ 0 → env.Auth ≠ 1 →
      (env.Get (args.getD 0 []) = none →
        SubscribeTCPHandle env args = [Event.get (args.getD 0 [])]) ∧
      (∀ c, env.Get (args.getD 0 []) = some c →
        SubscribeTCPHandle env args
          = Event.get (args.getD 0 []) ::
              sessionReplay env c (args.getD 0 []) mid
                (if 2 < args.length then hb else env.HeartbeatSec) ∧
        (env.SendMsg c mid (args.getD 0 []) = true →
          ∃ later, SubscribeTCPHandle env args
            = Event.get (args.getD 0 []) :: Event.sendMsg c mid (args.getD 0 []) ::
                Event.addConn c mid (args.getD 0 []) :: later))) ∧
    ((∃ c tk k, Event.authToken c tk k ∈ SubscribeTCPHandle env args) ↔
      (env.Auth = 1 ∧ ∃ c, env.Get (args.getD 0 []) = some c)) := by
  rw [SubscribeTCPHandle_wellformed env args mid hb hlen hmid hhb]
  have h01 : ¬ ((0 : Int) = 1) := by decide
  refine ⟨?_, ?_, ?_⟩
  · intro h0 h1
    unfold subscribeSession sessionAuth
    refine ⟨?_, ?_⟩
    · intro hg
      simp only [hg, h0, if_false]
    · intro c hg
      simp only [hg, h1, if_false, true_and]
      intro hs
      unfold sessionReplay
      simp only [hs, if_true]
      exact ⟨_, rfl⟩
  · rintro ⟨a, tk, k, hmem⟩
    unfold subscribeSession sessionAuth at hmem
    cases hg : env.Get (args.getD 0 []) with
    | none =>
      exfalso
      simp only [hg] at hmem
      by_cases h0 : env.Auth = 0
      · simp only [h0, if_true, h01, if_false, List.mem_cons] at hmem
        rcases hmem with hmem | hmem | hmem
        · cases hmem
        · cases hmem
        · cases hn : env.New (args.getD 0 []) with
          | none => simp only [hn, List.not_mem_nil] at hmem
          | some c =>
            simp only [hn] at hmem
            exact sessionReplay_no_authToken env c _ mid _ a tk k hmem
      · simp only [h0, if_false, List.mem_singleton] at hmem
        cases hmem
    | some c0 =>
      by_cases h1 : env.Auth = 1
      · exact ⟨h1, c0, rfl⟩
      · exfalso
        simp only [hg, h1, if_false, List.mem_cons] at hmem
        rcases hmem with hmem | hmem
        · cases hmem
        · exact sessionReplay_no_authToken env c0 _ mid _ a tk k hmem
  · rintro ⟨h1, c, hg⟩
    refine ⟨c, (if 3 < args.length then args.getD 3 [] else []), args.getD 0 [], ?_⟩
    unfold subscribeSession sessionAuth
    simp only [hg, h1, if_true, List.mem_cons, true_or, or_true]

theorem SubscribeTCPHandle_auth_other_values_witness :
    SubscribeTCPHandle { authEnv with Auth := 2 } [bytes "k", bytes "5", bytes "10", bytes "bad"]
      = Event.get (bytes "k") ::
          sessionReplay { authEnv with Auth := 2 } 3 (bytes "k") 5 10 ∧
    SubscribeTCPHandle { demoEnv with Auth := 2 } [bytes "k", bytes "5"]
      = [Event.get (bytes "k")] :=
  ⟨(((SubscribeTCPHandle_auth_other_values { authEnv with Auth := 2 }
      [bytes "k", bytes "5", bytes "10", bytes "bad"] 5 10
      (by decide) (by decide) (fun _ => by decide)).1 (by decide) (by decide)).2 3 rfl).1,
   ((SubscribeTCPHandle_auth_other_values { demoEnv with Auth := 2 }
      [bytes "k", bytes "5"] 5 0
      (by decide) (by decide) (by decide)).1 (by decide) (by decide)).1 rfl⟩

/-! ## The heartbeat loop -/

/-- After `k` marker bytes, each acknowledged, the loop has done `k` rounds and goes
on with the rest of the reads. -/
theorem heartbeatLoop_rounds (env : Env) (heartbeat : Int) (m : Nat)
    (hm : env.heartbeatMsg = [m]) :
    ∀ (k w : Nat) (tail : List (Option Nat)),
      (∀ i, i < k → env.writeOk (w + i) = true) →
      heartbeatLoop env heartbeat (List.replicate k (some m) ++ tail) w
        = (List.replicate k (heartbeatRound env heartbeat m)).flatten
            ++ heartbeatLoop env heartbeat tail (w + k) := by
  intro k
  induction k with
  | zero => intro w tail _; simp
  | succ k ih =>
    intro w tail hw
    have hw0 : env.writeOk w = true := by simpa using hw 0 (Nat.succ_pos k)
    have hrest : ∀ i, i < k → env.writeOk (w + 1 + i) = true := by
      intro i hi
      have := hw (i + 1) (Nat.succ_lt_succ hi)
      rwa [show w + 1 + i = w + (i + 1) by omega]
    rw [List.replicate_succ, List.cons_append, heartbeatLoop]
    simp only [hm, if_true, hw0]
    rw [ih (w + 1) tail hrest, List.replicate_succ, List.flatten_cons]
    simp only [heartbeatRound, List.cons_append, List.nil_append]
    rw [show w + 1 + k = w + (k + 1) by omega]

theorem heartbeatRounds_writes (env : Env) (heartbeat : Int) (m : Nat) :
    ∀ k : Nat,
      ((List.replicate k (heartbeatRound env heartbeat m)).flatten).countP Event.isWrite = k ∧
      ∀ e ∈ (List.replicate k (heartbeatRound env heartbeat m)).flatten,
        e.isWrite = true → e = Event.write env.heartbeatBytes true := by
  intro k
  induction k with
  | zero => simp
  | succ k ih =>
    rw [List.replicate_succ, List.flatten_cons]
    refine ⟨?_, ?_⟩
    · rw [List.countP_append, ih.1]
      simp only [heartbeatRound, List.countP_cons, List.countP_nil, Event.isWrite]
      simp
      omega
    · intro e he hw
      rw [List.mem_append] at he
      rcases he with he | he
      · simp only [heartbeatRound, List.mem_cons, List.mem_singleton, List.not_mem_nil,
          or_false] at he
        rcases he with rfl | rfl | rfl
        · simp [Event.isWrite] at hw
        · simp [Event.isWrite] at hw
        · rfl
      · exact ih.2 e he hw

/-- C15: a registered session (replay and registration succeeded) whose
connection delivers `k` heartbeat marker bytes, each acknowledgement write
succeeding, runs `k` rounds of deadline, read and acknowledgement, which hold
exactly `k` writes, all of them the acknowledgement; then, on a failed read or on
a byte that is not the marker, it reads once more and ends with the deferred
`RemoveConn`, writing nothing else; and when the acknowledgement of one more marker
fails to be written, the session ends right after that write, with no further
read. -/
theorem sessionReplay_heartbeats (env : Env) (c : Nat) (key : List Nat) (mid heartbeat : Int)
    (m k : Nat) (tail : List (Option Nat)) (hm : env.heartbeatMsg = [m])
    (hs : env.SendMsg c mid key = true) (ha : env.AddConn c mid key = true)
    (hreads : env.reads = List.replicate k (some m) ++ tail)
    (hw : ∀ i, i < k → env.writeOk i = true) :
    ((tail = [] ∨ ∃ rest, tail = none :: rest) →
      sessionReplay env c key mid heartbeat
        = Event.sendMsg c mid key :: Event.addConn c mid key ::
            ((List.replicate k (heartbeatRound env heartbeat m)).flatten
              ++ [Event.setReadDeadline (deadlineNanos heartbeat), Event.read none,
                  Event.removeConn c mid key])) ∧
    (∀ b rest, tail = some b :: rest → b ≠ m →
      sessionReplay env c key mid heartbeat
        = Event.sendMsg c mid key :: Event.addConn c mid key ::
            ((List.replicate k (heartbeatRound env heartbeat m)).flatten
              ++ [Event.setReadDeadline (deadlineNanos heartbeat), Event.read (some b),
                  Event.removeConn c mid key])) ∧
    (∀ rest, tail = some m :: rest → env.writeOk k = false →
      sessionReplay env c key mid heartbeat
        = Event.sendMsg c mid key :: Event.addConn c mid key ::
            ((List.replicate k (heartbeatRound env heartbeat m)).flatten
              ++ [Event.setReadDeadline (deadlineNanos heartbeat), Event.read (some m),
                  Event.write env.heartbeatBytes false, Event.removeConn c mid key])) ∧
    ((List.replicate k (heartbeatRound env heartbeat m)).flatten).countP Event.isWrite = k ∧
    (∀ e ∈ (List.replicate k (heartbeatRound env heartbeat m)).flatten,
      e.isWrite = true → e = Event.write env.heartbeatBytes true) := by
  have hloop : heartbeatLoop env heartbeat env.reads 0
      = (List.replicate k (heartbeatRound env heartbeat m)).flatten
          ++ heartbeatLoop env heartbeat tail k := by
    rw [hreads, heartbeatLoop_rounds env heartbeat m hm k 0 tail (by simpa using hw)]
    simp
  have hsess : sessionReplay env c key mid heartbeat
      = Event.sendMsg c mid key :: Event.addConn c mid key ::
          ((List.replicate k (heartbeatRound env heartbeat m)).flatten
            ++ (heartbeatLoop env heartbeat tail k ++ [Event.removeConn c mid key])) := by
    unfold sessionReplay
    simp only [hs, ha, if_true, hloop, List.append_assoc]
  refine ⟨?_, ?_, ?_, (heartbeatRounds_writes env heartbeat m k).1,
    (heartbeatRounds_writes env heartbeat m k).2⟩
  · rintro (rfl | ⟨rest, rfl⟩)
    · rw [hsess]; simp [heartbeatLoop]
    · rw [hsess]; simp [heartbeatLoop]
  · rintro b rest rfl hb
    rw [hsess]
    have hne : ¬ ([b] = env.heartbeatMsg) := by
      rw [hm]; simpa using hb
    simp [heartbeatLoop, hne]
  · rintro rest rfl hf
    rw [hsess]
    simp [heartbeatLoop, hm, hf]

theorem sessionReplay_heartbeats_witness :
    sessionReplay { demoEnv with reads := [some 104, some 104, some 3, some 104] }
        0 (bytes "k") 5 10
      = [Event.sendMsg 0 5 (bytes "k"), Event.addConn 0 5 (bytes "k"),
          Event.setReadDeadline 10000000000, Event.read (some 104),
          Event.write [43, 104, 13, 10] true,
          Event.setReadDeadline 10000000000, Event.read (some 104),
          Event.write [43, 104, 13, 10] true,
          Event.setReadDeadline 10000000000, Event.read (some 3),
          Event.removeConn 0 5 (bytes "k")] :=
  (sessionReplay_heartbeats { demoEnv with reads := [some 104, some 104, some 3, some 104] }
    0 (bytes "k") 5 10 104 2 [some 3, some 104] rfl rfl rfl rfl (fun _ _ => rfl)).2.1
    3 [some 104] rfl (by decide)

/-! ## Further decoder claims -/

/-- C16, evaluated on the code: on the stream `*1 CR LF $3 CR LF sub CR LF` the call
`parseCmdSize(rd, 42)` does not stop after the first line: it returns the end of
stream error and leaves the reader empty, not positioned at `$3 CR LF sub CR LF`; on
every stream the reader is empty when `parseCmdSize` returns. -/
theorem parseCmdSize_at_two_lines :
    parseCmdSize ⟨bytes "*1\r\n$3\r\nsub\r\n", Error.EOF⟩ 42
      = some (Res.err Error.EOF, ⟨[], Error.EOF⟩) ∧
    parseCmdSize ⟨bytes "*1\r\n$3\r\nsub\r\n", Error.EOF⟩ 42
      ≠ some (Res.ok 1, ⟨bytes "$3\r\nsub\r\n", Error.EOF⟩) ∧
    (∀ (rd : Reader) (p : Nat), ∃ r, parseCmdSize rd p = some (r, ⟨[], rd.endErr⟩)) :=
  ⟨by decide, by decide, fun rd p => ⟨_, parseCmdSize_eq rd p⟩⟩

/-- C19: `parseCmdData` does not look at the terminator.  On two streams with the
same number of bytes available it succeeds on both or on neither, for every
`cmdLen`; and data followed by any two bytes `x`, `y` is accepted, the two bytes
returned with it. -/
theorem parseCmdData_ignores_terminator (rd1 rd2 : Reader) (n : Int)
    (hlen : rd1.data.length = rd2.data.length) :
    (parseCmdData rd1 n).1.isOk = (parseCmdData rd2 n).1.isOk ∧
    (∀ (a rest : List Nat) (x y : Nat) (e : Error), a.length + 2 < 2 ^ 63 →
      parseCmdData ⟨a ++ [x, y] ++ rest, e⟩ (a.length : Int)
        = (Res.ok (a ++ [x, y]), ⟨rest, e⟩)) := by
  refine ⟨?_, ?_⟩
  · unfold parseCmdData
    simp only
    by_cases hneg : wrapInt64 (n + 2) < 0
    · simp only [hneg, if_true]
    · simp only [hneg, if_false]
      unfold Reader.Read
      by_cases h0 : (wrapInt64 (n + 2)).toNat = 0
      · simp only [h0, if_true]
        rfl
      · simp only [h0, if_false]
        by_cases hd1 : rd1.data = []
        · have hd2 : rd2.data = [] := by
            apply List.eq_nil_of_length_eq_zero
            rw [← hlen, hd1]; rfl
          simp only [hd1, hd2, if_true]
          rfl
        · have hd2 : ¬ rd2.data = [] := by
            intro h
            apply hd1
            apply List.eq_nil_of_length_eq_zero
            rw [hlen, h]; rfl
          simp only [hd1, hd2, if_false, List.length_take, hlen]
          split_ifs <;> rfl
  · intro a rest x y e ha
    have hw : wrapInt64 ((a.length : Int) + 2) = ((a.length + 2 : Nat) : Int) := by
      rw [wrapInt64_of_mem] <;> push_cast <;> omega
    unfold parseCmdData
    simp only [hw]
    have hneg : ¬ (((a.length + 2 : Nat) : Int) < 0) := by omega
    rw [if_neg hneg, Int.toNat_ofNat]
    unfold Reader.Read
    have hne : ¬ (a.length + 2 = 0) := by omega
    have hd : ¬ (a ++ [x, y] ++ rest = []) := by simp
    have htake : List.take (a.length + 2) (a ++ [x, y] ++ rest) = a ++ [x, y] := by
      have : a.length + 2 = (a ++ [x, y]).length := by simp
      rw [this, List.take_left']
      rfl
    have hdrop : List.drop (a.length + 2) (a ++ [x, y] ++ rest) = rest := by
      have : a.length + 2 = (a ++ [x, y]).length := by simp
      rw [this, List.drop_left']
      rfl
    simp only [hne, hd, if_false, htake, hdrop]
    simp

theorem parseCmdData_ignores_terminator_witness :
    (parseCmdData ⟨bytes "sub\r\n", Error.EOF⟩ 3).1.isOk
      = (parseCmdData ⟨bytes "subXY", Error.EOF⟩ 3).1.isOk ∧
    (∀ (a rest : List Nat) (x y : Nat) (e : Error), a.length + 2 < 2 ^ 63 →
      parseCmdData ⟨a ++ [x, y] ++ rest, e⟩ (a.length : Int)
        = (Res.ok (a ++ [x, y]), ⟨rest, e⟩)) :=
  parseCmdData_ignores_terminator ⟨bytes "sub\r\n", Error.EOF⟩ ⟨bytes "subXY", Error.EOF⟩ 3
    (by decide)

/-- C20, evaluated on the code: `Atoi` yields -5 on the digits of the size line
`$-5 CR LF`; with `cmdLen = -5` the buffer size `cmdLen + 2` is -3 and `parseCmdData` panics in
`make`, returning neither bytes nor an error; so it does for every `cmdLen` below -2. -/
theorem parseCmdData_at_minus_five :
    Atoi (bytes "-5") = some (-5) ∧
    wrapInt64 (-5 + 2) = -3 ∧
    parseCmdData ⟨bytes "abc", Error.EOF⟩ (-5) = (Res.panic, ⟨bytes "abc", Error.EOF⟩) ∧
    (∀ (rd : Reader) (n : Int), -(2 ^ 63) ≤ n → n < -2 →
      parseCmdData rd n = (Res.panic, rd)) := by
  refine ⟨by decide, by decide, by decide, ?_⟩
  intro rd n hlo hhi
  have hw : wrapInt64 (n + 2) = n + 2 := by
    rw [wrapInt64_of_mem] <;> omega
  unfold parseCmdData
  simp only [hw]
  have hneg : n + 2 < 0 := by omega
  rw [if_pos hneg]

end Gopush2
